import Mathlib

/-!
A shallow embedding of the K230 firmware generation pipeline of the
`kendryte-hal` repository (`src/xtask/src/gen/firmware.rs` together with
`src/xtask/src/error.rs`).

Modelling conventions:
* Machine bytes are natural numbers; byte strings are `List Nat`.
* The configuration constants of `xtask/src/gen/config.rs` (MAGIC, VERSION,
  ID, ID_LEN, key material, the hex strings N/E/D, ...) are not part of the
  source tree; they are opaque inputs and are bundled, together with the
  external cryptographic primitives (SHA-256, SM3, SM4-CBC, SM2, AES-GCM,
  RSA), into an environment structure `Env` over which every statement
  quantifies.
* Fallible Rust operations return `Except`; a Rust panic (arithmetic
  underflow, out-of-bounds slicing, `from_slice` length mismatch) is a
  distinct `GenError.panic` outcome, kept apart from the explicit
  `XtaskError` results that the Rust function returns as `Err`.
* Randomness drawn by the SM2 signing primitive is made explicit as a
  `rng : Nat` seed argument threaded to the signing function.
-/

namespace K230

/-- Wire bytes are modelled as lists of natural numbers (each in `0..255`). -/
abbrev Bytes := List Nat

/-- Decidable equality of `Except` values, so that concrete runs of the
pipeline can be settled by `decide`. -/
instance instDecEqExcept {ε α : Type} [DecidableEq ε] [DecidableEq α] :
    DecidableEq (Except ε α) := fun a b =>
  match a, b with
  | .ok x, .ok y =>
    if h : x = y then isTrue (congrArg Except.ok h)
    else isFalse (fun hc => h (by simpa using hc))
  | .ok _, .error _ => isFalse (fun hc => by simp at hc)
  | .error _, .ok _ => isFalse (fun hc => by simp at hc)
  | .error e, .error f =>
    if h : e = f then isTrue (congrArg Except.error h)
    else isFalse (fun hc => h (by simpa using hc))

/-- The error enum of `xtask/src/error.rs` (`XtaskError`). -/
inductive XtaskError
  | invalidEncryptionType
  | io (msg : String)
  | sm4Error (msg : String)
  | sm2Error (msg : String)
  | aesError (msg : String)
  | rsaError (msg : String)
  | rsaParseError (msg : String)
deriving DecidableEq

/-- Outcome of a firmware-generation call: either an explicit `XtaskError`
(the Rust `Err` return) or a Rust panic/abort, which never surfaces as an
`Err` value. -/
inductive GenError
  | xtask (e : XtaskError)
  | panic (msg : String)
deriving DecidableEq

/-- Encryption types supported for firmware
(`enum EncryptionType { None = 0, Sm4 = 1, Aes = 2 }`). -/
inductive EncryptionType
  | none
  | sm4
  | aes
deriving DecidableEq

/-- The wire code of an encryption type (the Rust cast `encryption as i32`). -/
def EncryptionType.toWire : EncryptionType → Nat
  | .none => 0
  | .sm4 => 1
  | .aes => 2

/-- Character-wise ASCII lowercasing: models Rust `str::to_lowercase` (the
selector keywords and their case variants are ASCII, where Unicode and ASCII
lowercasing agree). -/
def toLowercase (s : String) : String := String.mk (s.data.map Char.toLower)

/-- `impl FromStr for EncryptionType` (`firmware.rs`, `from_str`): lowercase
the input and match it against the three keywords; anything else is an
`InvalidEncryptionType` error.  A pure function of its argument. -/
def EncryptionType.from_str (s : String) : Except XtaskError EncryptionType :=
  let t := toLowercase s
  if t = "none" then .ok .none
  else if t = "sm4" then .ok .sm4
  else if t = "aes" then .ok .aes
  else .error .invalidEncryptionType

/-- The 4 bytes of `(x as i32).to_le_bytes()` for a nonnegative length `n`
(the cast wraps modulo `2 ^ 32`; the little-endian bytes below are exactly
the bytes of `n mod 2 ^ 32`). -/
def toLeBytes4 (n : Nat) : Bytes :=
  [n % 256, n / 256 % 256, n / 256 ^ 2 % 256, n / 256 ^ 3 % 256]

/-- `(x as i32).to_ne_bytes()`: the platform's native byte order, i.e. the
little-endian bytes on a little-endian platform and the reversed (big-endian)
bytes on a big-endian platform. -/
def toNeBytes4 (bigEndian : Bool) (n : Nat) : Bytes :=
  if bigEndian then (toLeBytes4 n).reverse else toLeBytes4 n

/-- Decode a 4-byte little-endian field back to its numeric value. -/
def fromLeBytes4 (bs : Bytes) : Nat :=
  match bs with
  | [b0, b1, b2, b3] => b0 + 256 * b1 + 65536 * b2 + 16777216 * b3
  | _ => 0

/-- Decode a 4-byte native-order field back to its numeric value. -/
def fromNeBytes4 (bigEndian : Bool) (bs : Bytes) : Nat :=
  if bigEndian then fromLeBytes4 bs.reverse else fromLeBytes4 bs

/-- Fuel-driven digit extraction for minimal little-endian integer bytes. -/
def toBytesLeAux : Nat → Nat → Bytes
  | 0, _ => []
  | _ + 1, 0 => []
  | fuel + 1, n + 1 => ((n + 1) % 256) :: toBytesLeAux fuel ((n + 1) / 256)

/-- `BigUint::to_bytes_le` of the `num-bigint` crate (used by the code for
the SM2 signature components `r`, `s` and for the RSA `n`, `e`): the
*minimal-length* little-endian byte encoding of the integer — no padding to
any fixed width — with `0` encoded as the single byte `[0]`. -/
def toBytesLe (n : Nat) : Bytes :=
  if n = 0 then [0] else toBytesLeAux n n

/-- ASCII hexadecimal digit value (`0-9`, `a-f`, `A-F`). -/
def hexDigitVal (b : Nat) : Option Nat :=
  if 48 ≤ b ∧ b ≤ 57 then some (b - 48)
  else if 97 ≤ b ∧ b ≤ 102 then some (b - 87)
  else if 65 ≤ b ∧ b ≤ 70 then some (b - 55)
  else none

/-- Accumulate hex digits; any non-digit byte fails the whole parse. -/
def parseHexBytesCore : Bytes → Nat → Option Nat
  | [], acc => some acc
  | b :: rest, acc =>
    match hexDigitVal b with
    | some v => parseHexBytesCore rest (acc * 16 + v)
    | none => none

/-- `BigUint::parse_bytes(buf, 16)`: parse an ASCII hex numeral, `none` on an
empty string or any invalid digit (the configuration constants are plain hex
digit strings, so sign handling is irrelevant). -/
def parseHexBytes (bs : Bytes) : Option Nat :=
  if bs.isEmpty then none else parseHexBytesCore bs 0

/-- `u32::from_str_radix(s, 16)`: hex parse plus the `u32` range check. -/
def parseHexU32 (bs : Bytes) : Option Nat :=
  match parseHexBytes bs with
  | some v => if v < 2 ^ 32 then some v else none
  | none => none

/-- The PKCS#1 v1.5 signature scheme value of the `rsa` crate
(`Pkcs1v15Sign`): its `digestInfo` field models the DigestInfo bytes that
the scheme prepends to the digest (the crate's field of the same purpose);
`new_unprefixed()` constructs the scheme with that field empty. -/
structure Pkcs1v15Sign where
  digestInfo : Bytes
deriving DecidableEq

/-- `Pkcs1v15Sign::new_unprefixed()`: PKCS#1 v1.5 with no DigestInfo bytes
prepended to the hash. -/
def pkcs1v15NoDigestInfo : Pkcs1v15Sign := ⟨[]⟩

/-- The environment of one `gen_firmware` call: the configuration constants
of `xtask/src/gen/config.rs` (absent from the source tree, hence opaque
here) and the external cryptographic primitives the pipeline orchestrates,
each modelled as an abstract function returning `Except` exactly where the
library call is fallible. -/
structure Env where
  /-- `MAGIC.as_bytes()`. -/
  magic : Bytes
  /-- `VERSION`. -/
  version : Bytes
  /-- Whether the platform is big-endian (decides `to_ne_bytes`). -/
  bigEndian : Bool
  /-- SHA-256 (`sha2::Sha256` via the local helper `sha_256`). -/
  sha256 : Bytes → Bytes
  /-- SM3 (`libsm::sm3::hash::Sm3Hash::get_hash`). -/
  sm3 : Bytes → Bytes
  /-- `ADD_AUTH_DATA`. -/
  addAuthData : Bytes
  /-- `SM4_IV`. -/
  sm4Iv : Bytes
  /-- `Cipher::new(SM4_KEY, CipherMode::Cbc)`: fallible construction of the
  SM4-CBC cipher (the key is captured in the closure). -/
  sm4New : Except String Unit
  /-- `cipher.encrypt(aad, data, iv)`: SM4-CBC encryption. -/
  sm4Encrypt : Bytes → Bytes → Bytes → Except String Bytes
  /-- `PUBLIC_KEY` (raw SM2 public key bytes). -/
  publicKey : Bytes
  /-- `PRIVATE_KEY` (raw SM2 secret key bytes). -/
  privateKey : Bytes
  /-- `PUBLIC_KEY_X`. -/
  publicKeyX : Bytes
  /-- `PUBLIC_KEY_Y`. -/
  publicKeyY : Bytes
  /-- `ID_LEN` (a byte-string constant). -/
  idLenBytes : Bytes
  /-- `ID.as_bytes()`. -/
  id : Bytes
  /-- `SigCtx::load_pubkey`: yields an opaque public-key handle. -/
  loadPubkey : Bytes → Except String Nat
  /-- `SigCtx::load_seckey`: yields an opaque secret-key handle. -/
  loadSeckey : Bytes → Except String Nat
  /-- `EccCtx::get_a().to_bytes()`. -/
  curveA : Bytes
  /-- `EccCtx::get_b().to_bytes()`. -/
  curveB : Bytes
  /-- `EccCtx::generator()` followed by `.x.to_bytes()` / `.y.to_bytes()`. -/
  generator : Except String (Bytes × Bytes)
  /-- `SigCtx::hash(ID, pk, msg)`: the library's SM2 Z-value digest of the
  message argument (the identity string is captured in the closure). -/
  sigHash : Nat → Bytes → Except String Bytes
  /-- `SigCtx::sign_raw(digest, sk)`: yields the numeric `(r, s)` pair; its
  first argument is the random seed the primitive draws internally. -/
  signRaw : Nat → Bytes → Nat → Except String (Nat × Nat)
  /-- `INITIAL_AES_KEY`. -/
  aesKey : Bytes
  /-- `INITIAL_AES_IV`. -/
  aesIv : Bytes
  /-- `Aes256Gcm::encrypt_in_place_detached(nonce, aad, buffer)`: yields the
  transformed buffer and the detached authentication tag. -/
  aesEncrypt : Bytes → Bytes → Bytes → Except String (Bytes × Bytes)
  /-- `N` (ASCII hex bytes). -/
  nHexBytes : Bytes
  /-- `E` (ASCII bytes, with a leading `0x`). -/
  eHexBytes : Bytes
  /-- `D` (ASCII hex bytes). -/
  dHexBytes : Bytes
  /-- `RsaPrivateKey::from_components(n, e, d, vec![])`: yields an opaque
  private-key handle. -/
  fromComponents : Nat → Nat → Nat → Except String Nat
  /-- `Pkcs1v15Sign::sign(rng, priv_key, hashed)`: scheme value, optional
  rng, key handle, digest. -/
  rsaSign : Pkcs1v15Sign → Option Nat → Nat → Bytes → Except String Bytes

/-- `data_with_version`: the `VERSION` tag prepended to the payload. -/
def dataWithVersion (env : Env) (data : Bytes) : Bytes := env.version ++ data

/-- The `EncryptionType::None` arm of `gen_firmware`: magic, native-order
`data_len`, little-endian `enc_type = 0`, SHA-256 digest of the versioned
payload, `516 - 32` zero bytes, then the versioned payload itself.  This arm
performs no fallible operation. -/
def nonePath (env : Env) (data : Bytes) : Bytes :=
  env.magic
    ++ toNeBytes4 env.bigEndian (dataWithVersion env data).length
    ++ toLeBytes4 EncryptionType.none.toWire
    ++ env.sha256 (dataWithVersion env data)
    ++ List.replicate (516 - 32) 0
    ++ dataWithVersion env data

/-- The input of the hand-rolled SM2 Z-value in the `Sm4` arm:
`ID_LEN ‖ ID ‖ a ‖ b ‖ Gx ‖ Gy ‖ PUBLIC_KEY`. -/
def zInput (env : Env) (g : Bytes × Bytes) : Bytes :=
  env.idLenBytes ++ env.id ++ env.curveA ++ env.curveB ++ g.1 ++ g.2 ++ env.publicKey

/-- The message digest `e = SM3(Za ‖ ciphertext)` with
`Za = SM3(zInput)`, as computed by the `Sm4` arm before signing. -/
def sm2EHash (env : Env) (g : Bytes × Bytes) (ciphertext : Bytes) : Bytes :=
  env.sm3 (env.sm3 (zInput env g) ++ ciphertext)

/-- The fallible preparatory steps of the `Sm4` arm, in source order:
cipher construction, SM4-CBC encryption of the versioned payload, loading of
the public and secret SM2 keys, retrieval of the curve generator.  Yields
`(ciphertext, pk, sk, (Gx, Gy))`. -/
def sm4Prelude (env : Env) (data : Bytes) :
    Except GenError (Bytes × Nat × Nat × (Bytes × Bytes)) :=
  match env.sm4New with
  | .error e => .error (.xtask (.sm4Error e))
  | .ok _ =>
    match env.sm4Encrypt env.addAuthData (dataWithVersion env data) env.sm4Iv with
    | .error e => .error (.xtask (.sm4Error e))
    | .ok ciphertext =>
      match env.loadPubkey env.publicKey with
      | .error e => .error (.xtask (.sm2Error e))
      | .ok pk =>
        match env.loadSeckey env.privateKey with
        | .error e => .error (.xtask (.sm2Error e))
        | .ok sk =>
          match env.generator with
          | .error e => .error (.xtask (.sm2Error e))
          | .ok g => .ok (ciphertext, pk, sk, g)

/-- The value the `Sm4` arm passes to the raw signing primitive
`sign_raw`: the result of `sig_ctx.hash(ID, &pk, &e)` applied to the message
digest `e` (not `e` itself). -/
def sm4SignArg (env : Env) (data : Bytes) : Except GenError Bytes :=
  match sm4Prelude env data with
  | .error e => .error e
  | .ok (ciphertext, pk, _, g) =>
    match env.sigHash pk (sm2EHash env g ciphertext) with
    | .error e => .error (.xtask (.sm2Error e))
    | .ok digest => .ok digest

/-- The message digest `e` of the `Sm4` arm, lifted over the same fallible
prelude as `sm4SignArg` for comparison. -/
def sm4EValue (env : Env) (data : Bytes) : Except GenError Bytes :=
  match sm4Prelude env data with
  | .error e => .error e
  | .ok (ciphertext, _, _, g) => .ok (sm2EHash env g ciphertext)

/-- The fixed-layout region of the `Sm4` image from the `id_len` field
through the `s` field: `id_len(4B, LE) ‖ id ‖ zero padding of
`512 - 32*4 - id.len()` bytes ‖ pub_x ‖ pub_y ‖ r ‖ s`, with `r`, `s`
serialized by `BigUint::to_bytes_le`. -/
def sm4Region (env : Env) (r s : Nat) : Bytes :=
  toLeBytes4 env.id.length ++ env.id
    ++ List.replicate (512 - 32 * 4 - env.id.length) 0
    ++ env.publicKeyX ++ env.publicKeyY
    ++ toBytesLe r ++ toBytesLe s

/-- The complete `Sm4` image layout. -/
def sm4Layout (env : Env) (ciphertext : Bytes) (r s : Nat) : Bytes :=
  env.magic
    ++ toLeBytes4 ciphertext.length
    ++ toLeBytes4 EncryptionType.sm4.toWire
    ++ sm4Region env r s
    ++ ciphertext

/-- Final assembly of the `Sm4` arm.  The Rust padding length
`512 - 32 * 4 - id.len()` is a `usize` subtraction: when `id.len() > 384` it
underflows, which panics in a debug build and in a release build wraps to an
astronomically large `vec![0; ...]` allocation that aborts — in neither case
does the function return an `Err`; this is modelled as `GenError.panic`. -/
def sm4Assemble (env : Env) (ciphertext : Bytes) (r s : Nat) :
    Except GenError Bytes :=
  if 512 - 32 * 4 < env.id.length then
    .error (.panic "attempt to subtract with overflow")
  else
    .ok (sm4Layout env ciphertext r s)

/-- The `EncryptionType::Sm4` arm of `gen_firmware`: SM4-CBC encryption,
SM2 key loading, the hand-rolled Z-value and message digest `e`, the
library digest `sig_ctx.hash(ID, &pk, &e)` of `e`, raw signing, and layout
assembly. -/
def sm4Path (env : Env) (rng : Nat) (data : Bytes) : Except GenError Bytes :=
  match sm4Prelude env data with
  | .error e => .error e
  | .ok (ciphertext, pk, sk, g) =>
    match env.sigHash pk (sm2EHash env g ciphertext) with
    | .error e => .error (.xtask (.sm2Error e))
    | .ok digest =>
      match env.signRaw rng digest sk with
      | .error e => .error (.xtask (.sm2Error e))
      | .ok (r, s) => sm4Assemble env ciphertext r s

/-- The `EncryptionType::Aes` arm of `gen_firmware`.  `Key::from_slice` and
`Nonce::from_slice` panic on a length mismatch; `&E[2..]` panics when `E` is
shorter than two bytes; all other failures are explicit `XtaskError`s.  The
RSA signature is computed over `SHA-256(tag)` with the DigestInfo-free
PKCS#1 v1.5 scheme and no rng (`sign::<OsRng>(None, ...)`). -/
def aesPath (env : Env) (data : Bytes) : Except GenError Bytes :=
  if env.aesKey.length ≠ 32 then .error (.panic "invalid AES-256 key length")
  else if env.aesIv.length ≠ 12 then .error (.panic "invalid AES-GCM nonce length")
  else
    match env.aesEncrypt env.aesIv env.addAuthData (dataWithVersion env data) with
    | .error e => .error (.xtask (.aesError e))
    | .ok (ct, tag) =>
      match parseHexBytes env.nHexBytes with
      | none => .error (.xtask (.rsaParseError "Failed to parse N for RSA"))
      | some n =>
        if env.eHexBytes.length < 2 then
          .error (.panic "byte index out of bounds of str")
        else
          match parseHexU32 (env.eHexBytes.drop 2) with
          | none => .error (.xtask (.rsaParseError "Failed to parse E for RSA"))
          | some e =>
            match parseHexBytes env.dHexBytes with
            | none => .error (.xtask (.rsaParseError "Failed to parse D for RSA"))
            | some d =>
              match env.fromComponents n e d with
              | .error er => .error (.xtask (.rsaError er))
              | .ok key =>
                match env.rsaSign pkcs1v15NoDigestInfo Option.none key
                    (env.sha256 tag) with
                | .error er => .error (.xtask (.rsaError er))
                | .ok signature =>
                  .ok (env.magic
                    ++ toLeBytes4 (ct ++ tag).length
                    ++ toLeBytes4 EncryptionType.aes.toWire
                    ++ toBytesLe n ++ toBytesLe e
                    ++ signature
                    ++ (ct ++ tag))

/-- `gen_firmware(data, encryption)` of `firmware.rs`, dispatching on the
encryption type. -/
def gen_firmware (env : Env) (rng : Nat) (data : Bytes)
    (encryption : EncryptionType) : Except GenError Bytes :=
  match encryption with
  | .none => .ok (nonePath env data)
  | .sm4 => sm4Path env rng data
  | .aes => aesPath env data

/-- A concrete environment for evaluating the pipeline on small inputs: all
constants are empty or zero-filled, the abstract hash functions are simple
computable stand-ins, and every fallible primitive succeeds. -/
def trivialEnv : Env where
  magic := []
  version := []
  bigEndian := false
  sha256 := fun _ => List.replicate 32 0
  sm3 := fun l => [l.length % 256]
  addAuthData := []
  sm4Iv := []
  sm4New := .ok ()
  sm4Encrypt := fun _ _ _ => .ok []
  publicKey := []
  privateKey := []
  publicKeyX := List.replicate 32 0
  publicKeyY := List.replicate 32 0
  idLenBytes := []
  id := []
  loadPubkey := fun _ => .ok 0
  loadSeckey := fun _ => .ok 0
  curveA := []
  curveB := []
  generator := .ok ([], [])
  sigHash := fun _ m => .ok m
  signRaw := fun _ _ _ => .ok (1, 1)
  aesKey := List.replicate 32 0
  aesIv := List.replicate 12 0
  aesEncrypt := fun _ _ d => .ok (d, List.replicate 16 0)
  nHexBytes := [49]
  eHexBytes := [48, 120, 49, 55]
  dHexBytes := [49]
  fromComponents := fun _ _ _ => .ok 0
  rsaSign := fun _ _ _ dg => .ok dg

/-- An environment whose identity string is 385 bytes long — one byte past
the `Sm4` padding budget `512 - 32 * 4 = 384` — and in which every
cryptographic primitive succeeds. -/
def overlongIdEnv : Env :=
  { trivialEnv with id := List.replicate 385 97 }

/-- An environment with a nonempty magic and version tag, for the C5
concrete scenario (payload of four zero bytes). -/
def noneWitnessEnv : Env :=
  { trivialEnv with magic := [7], version := [1, 2] }

/-- An environment whose SM2 library digest (`SigCtx::hash`) visibly
re-hashes its message argument — two bytes of context followed by the
message, run through the stand-in SM3 — as the real library does with its
`SM3(Za ‖ msg)` construction. -/
def signArgCexEnv : Env :=
  { trivialEnv with sigHash := fun _ m => .ok (trivialEnv.sm3 ([0, 0] ++ m)) }

/-- An environment for exhibiting the variable-width signature serialization
(`signRaw` yields the perfectly legal numeric pair `r = 1`, `s = 1`). -/
def smallSigEnv : Env :=
  { trivialEnv with publicKeyX := List.replicate 32 5,
                    publicKeyY := List.replicate 32 6 }

/-- An environment for the C6 counterexample (`r = 1`, `s = 2`). -/
def regionCexEnv : Env :=
  { trivialEnv with signRaw := fun _ _ _ => .ok (1, 2) }

set_option maxRecDepth 40000

/-- Inversion of a successful `Sm4` run: every fallible step succeeded, the
identity fits the padding budget, and the image has the `sm4Layout` shape. -/
theorem sm4Path_ok_inv {env : Env} {rng : Nat} {data img : Bytes}
    (h : sm4Path env rng data = .ok img) :
    ∃ ct pk sk g digest r s,
      sm4Prelude env data = .ok (ct, pk, sk, g) ∧
      env.sigHash pk (sm2EHash env g ct) = .ok digest ∧
      env.signRaw rng digest sk = .ok (r, s) ∧
      env.id.length ≤ 512 - 32 * 4 ∧
      img = sm4Layout env ct r s := by
  unfold sm4Path at h
  split at h
  · exact Except.noConfusion h
  next ct pk sk g hpre =>
    split at h
    · exact Except.noConfusion h
    next digest hsig =>
      split at h
      · exact Except.noConfusion h
      next r s hsign =>
        unfold sm4Assemble at h
        split at h
        · exact Except.noConfusion h
        next hle =>
          exact ⟨ct, pk, sk, g, digest, r, s, hpre, hsig, hsign, by omega,
            (Except.ok.inj h).symm⟩

/-- Inversion of a successful `Aes` run. -/
theorem aesPath_ok_inv {env : Env} {data img : Bytes}
    (h : aesPath env data = .ok img) :
    ∃ ct tag n e d key sig,
      env.aesKey.length = 32 ∧ env.aesIv.length = 12 ∧
      env.aesEncrypt env.aesIv env.addAuthData (dataWithVersion env data) = .ok (ct, tag) ∧
      parseHexBytes env.nHexBytes = some n ∧
      2 ≤ env.eHexBytes.length ∧
      parseHexU32 (env.eHexBytes.drop 2) = some e ∧
      parseHexBytes env.dHexBytes = some d ∧
      env.fromComponents n e d = .ok key ∧
      env.rsaSign pkcs1v15NoDigestInfo Option.none key (env.sha256 tag) = .ok sig ∧
      img = env.magic ++ toLeBytes4 (ct ++ tag).length
        ++ toLeBytes4 EncryptionType.aes.toWire
        ++ toBytesLe n ++ toBytesLe e ++ sig ++ (ct ++ tag) := by
  unfold aesPath at h
  split at h
  · exact Except.noConfusion h
  next hkey =>
    split at h
    · exact Except.noConfusion h
    next hiv =>
      split at h
      · exact Except.noConfusion h
      next ct tag henc =>
        split at h
        · exact Except.noConfusion h
        next n hn =>
          split at h
          · exact Except.noConfusion h
          next helen =>
            split at h
            · exact Except.noConfusion h
            next e he =>
              split at h
              · exact Except.noConfusion h
              next d hd =>
                split at h
                · exact Except.noConfusion h
                next key hk =>
                  split at h
                  · exact Except.noConfusion h
                  next sig hs =>
                    exact ⟨ct, tag, n, e, d, key, sig, by omega, by omega,
                      henc, hn, by omega, he, hd, hk, hs, (Except.ok.inj h).symm⟩

/-- Forward evaluation of the `Sm4` arm when every step succeeds. -/
theorem sm4Path_eq {env : Env} {rng : Nat} {data ct : Bytes} {pk sk : Nat}
    {g : Bytes × Bytes} {digest : Bytes} {r s : Nat}
    (hpre : sm4Prelude env data = .ok (ct, pk, sk, g))
    (hsig : env.sigHash pk (sm2EHash env g ct) = .ok digest)
    (hsign : env.signRaw rng digest sk = .ok (r, s))
    (hid : env.id.length ≤ 512 - 32 * 4) :
    sm4Path env rng data = .ok (sm4Layout env ct r s) := by
  simp [sm4Path, hpre, hsig, hsign, sm4Assemble]
  omega

/-- The digest the `Sm4` arm hands to `sign_raw`, under the same success
assumptions. -/
theorem sm4SignArg_eq {env : Env} {data ct : Bytes} {pk sk : Nat}
    {g : Bytes × Bytes} {digest : Bytes}
    (hpre : sm4Prelude env data = .ok (ct, pk, sk, g))
    (hsig : env.sigHash pk (sm2EHash env g ct) = .ok digest) :
    sm4SignArg env data = .ok digest := by
  simp [sm4SignArg, hpre, hsig]

/-- Forward evaluation of the `Aes` arm when every step succeeds. -/
theorem aesPath_eq {env : Env} {data ct tag : Bytes} {n e d key : Nat} {sig : Bytes}
    (hkey : env.aesKey.length = 32) (hiv : env.aesIv.length = 12)
    (henc : env.aesEncrypt env.aesIv env.addAuthData (dataWithVersion env data) = .ok (ct, tag))
    (hn : parseHexBytes env.nHexBytes = some n)
    (helen : 2 ≤ env.eHexBytes.length)
    (he : parseHexU32 (env.eHexBytes.drop 2) = some e)
    (hd : parseHexBytes env.dHexBytes = some d)
    (hk : env.fromComponents n e d = .ok key)
    (hs : env.rsaSign pkcs1v15NoDigestInfo Option.none key (env.sha256 tag) = .ok sig) :
    aesPath env data = .ok (env.magic ++ toLeBytes4 (ct ++ tag).length
      ++ toLeBytes4 EncryptionType.aes.toWire
      ++ toBytesLe n ++ toBytesLe e ++ sig ++ (ct ++ tag)) := by
  simp [aesPath, hkey, hiv, henc, hn, he, hd, hk, hs]
  omega

/-- Round trip of the native-order 4-byte encoding below `2 ^ 32`. -/
theorem fromNe_toNe {bigEndian : Bool} {n : Nat} (h : n < 2 ^ 32) :
    fromNeBytes4 bigEndian (toNeBytes4 bigEndian n) = n := by
  cases bigEndian <;>
    simp [fromNeBytes4, toNeBytes4, fromLeBytes4, toLeBytes4] <;> omega

/-- The native-order 4-byte encoding really is 4 bytes. -/
theorem toNeBytes4_length (bigEndian : Bool) (n : Nat) :
    (toNeBytes4 bigEndian n).length = 4 := by
  cases bigEndian <;> simp [toNeBytes4, toLeBytes4]

/-- C1: with an identity string of 385 bytes the `Sm4` padding length
`512 - 32 * 4 - id.len()` is negative; `gen_firmware` does **not** reject
this with an explicit `XtaskError`: the `usize` subtraction underflows and
the call panics (debug) or attempts a wrapped-size allocation (release).
The run ends in the panic outcome, not an `Err`, refuting the claimed
explicit guard. -/
theorem c1_sm4_overlong_id_panics :
    gen_firmware overlongIdEnv 0 [] .sm4 =
      .error (.panic "attempt to subtract with overflow") := by
  decide

/-- C9: the `None` variant of `gen_firmware` always succeeds: its arm
performs only hashing, length computation and concatenation (`nonePath` is
a total function), and invokes no fallible cipher, signature or key-parsing
operation. -/
theorem c9_none_always_ok (env : Env) (rng : Nat) (P : Bytes) :
    ∃ img, gen_firmware env rng P .none = .ok img :=
  ⟨nonePath env P, rfl⟩

/-- C10: the `None` variant is deterministic: the image does not depend on
the random seed drawn by the signing primitives (only the `Sm4` arm's
`sign_raw` consumes randomness), so two invocations with the same payload
under the same configuration produce byte-identical images. -/
theorem c10_none_deterministic (env : Env) (rngA rngB : Nat) (P : Bytes) :
    gen_firmware env rngA P .none = gen_firmware env rngB P .none := rfl

/-- C2: every multi-byte integer field of the image is serialized via
`toLeBytes4` (little-endian) — `cipher_len`, `enc_type` and `id_len` in the
`Sm4` arm, `cipher_len` and `enc_type` in the `Aes` arm, `enc_type` in the
`None` arm — except the `data_len` field of the `None` arm, which is
serialized via `toNeBytes4` (the platform's native byte order), and native
order genuinely differs from little-endian on a big-endian platform. -/
theorem c2_field_endianness :
    (∀ (env : Env) (rng : Nat) (P : Bytes),
      gen_firmware env rng P .none = .ok (env.magic
        ++ toNeBytes4 env.bigEndian (dataWithVersion env P).length
        ++ toLeBytes4 EncryptionType.none.toWire
        ++ env.sha256 (dataWithVersion env P)
        ++ List.replicate 484 0 ++ dataWithVersion env P)) ∧
    (∀ (env : Env) (rng : Nat) (P img : Bytes),
      gen_firmware env rng P .sm4 = .ok img →
      ∃ ct r s, img = env.magic ++ toLeBytes4 ct.length
        ++ toLeBytes4 EncryptionType.sm4.toWire
        ++ toLeBytes4 env.id.length
        ++ (env.id ++ List.replicate (512 - 32 * 4 - env.id.length) 0
            ++ env.publicKeyX ++ env.publicKeyY ++ toBytesLe r ++ toBytesLe s)
        ++ ct) ∧
    (∀ (env : Env) (rng : Nat) (P img : Bytes),
      gen_firmware env rng P .aes = .ok img →
      ∃ ct n e sig, img = env.magic ++ toLeBytes4 ct.length
        ++ toLeBytes4 EncryptionType.aes.toWire
        ++ toBytesLe n ++ toBytesLe e ++ sig ++ ct) ∧
    toNeBytes4 true 1 ≠ toLeBytes4 1 := by
  refine ⟨fun env rng P => rfl, ?_, ?_, by decide⟩
  · intro env rng P img h
    have h' : sm4Path env rng P = .ok img := by simpa [gen_firmware] using h
    obtain ⟨ct, pk, sk, g, digest, r, s, -, -, -, -, rfl⟩ := sm4Path_ok_inv h'
    exact ⟨ct, r, s, by simp [sm4Layout, sm4Region]⟩
  · intro env rng P img h
    have h' : aesPath env P = .ok img := by simpa [gen_firmware] using h
    obtain ⟨ct, tag, n, e, d, key, sig, -, -, -, -, -, -, -, -, -, rfl⟩ :=
      aesPath_ok_inv h'
    exact ⟨ct ++ tag, n, e, sig, rfl⟩

/-- Witness for C2 at a concrete environment: a successful `Sm4` run and a
successful `Aes` run, with the little-endian fields visible in the image. -/
theorem c2_field_endianness_witness :
    (∃ ct r s,
      ([0, 0, 0, 0, 1, 0, 0, 0, 0, 0, 0, 0] ++ List.replicate 448 0 ++ [1, 1] : Bytes)
        = trivialEnv.magic ++ toLeBytes4 ct.length
          ++ toLeBytes4 EncryptionType.sm4.toWire
          ++ toLeBytes4 trivialEnv.id.length
          ++ (trivialEnv.id
              ++ List.replicate (512 - 32 * 4 - trivialEnv.id.length) 0
              ++ trivialEnv.publicKeyX ++ trivialEnv.publicKeyY
              ++ toBytesLe r ++ toBytesLe s)
          ++ ct) ∧
    (∃ ct n e sig,
      ([16, 0, 0, 0, 2, 0, 0, 0, 1, 23] ++ List.replicate 48 0 : Bytes)
        = trivialEnv.magic ++ toLeBytes4 ct.length
          ++ toLeBytes4 EncryptionType.aes.toWire
          ++ toBytesLe n ++ toBytesLe e ++ sig ++ ct) :=
  ⟨c2_field_endianness.2.1 trivialEnv 0 [] _ (by decide),
   c2_field_endianness.2.2.1 trivialEnv 0 [] _ (by decide)⟩

/-- C5: the full layout of a `None` image — magic, the 4-byte native-order
`data_len` field encoding `len(version ‖ P)`, the 4-byte `enc_type = 0`
field, the 32-byte SHA-256 digest of `version ‖ P`, 484 zero bytes, and
`version ‖ P` verbatim. -/
theorem c5_none_layout (env : Env) (rng : Nat) (P : Bytes)
    (hsha : ∀ l, (env.sha256 l).length = 32)
    (hlen : (dataWithVersion env P).length < 2 ^ 32) :
    gen_firmware env rng P .none = .ok (env.magic
      ++ toNeBytes4 env.bigEndian (dataWithVersion env P).length
      ++ toLeBytes4 EncryptionType.none.toWire
      ++ env.sha256 (dataWithVersion env P)
      ++ List.replicate 484 0
      ++ dataWithVersion env P) ∧
    fromNeBytes4 env.bigEndian
        (toNeBytes4 env.bigEndian (dataWithVersion env P).length)
      = (dataWithVersion env P).length ∧
    (toNeBytes4 env.bigEndian (dataWithVersion env P).length).length = 4 ∧
    (env.sha256 (dataWithVersion env P)).length = 32 :=
  ⟨rfl, fromNe_toNe hlen, toNeBytes4_length _ _, hsha _⟩

/-- Witness for C5: the concrete scenario of the specification, a 4-byte
zero payload under the `None` variant. -/
theorem c5_none_layout_witness :
    gen_firmware noneWitnessEnv 0 [0, 0, 0, 0] .none = .ok (noneWitnessEnv.magic
      ++ toNeBytes4 noneWitnessEnv.bigEndian
          (dataWithVersion noneWitnessEnv [0, 0, 0, 0]).length
      ++ toLeBytes4 EncryptionType.none.toWire
      ++ noneWitnessEnv.sha256 (dataWithVersion noneWitnessEnv [0, 0, 0, 0])
      ++ List.replicate 484 0
      ++ dataWithVersion noneWitnessEnv [0, 0, 0, 0]) ∧
    fromNeBytes4 noneWitnessEnv.bigEndian
        (toNeBytes4 noneWitnessEnv.bigEndian
          (dataWithVersion noneWitnessEnv [0, 0, 0, 0]).length)
      = (dataWithVersion noneWitnessEnv [0, 0, 0, 0]).length ∧
    (toNeBytes4 noneWitnessEnv.bigEndian
        (dataWithVersion noneWitnessEnv [0, 0, 0, 0]).length).length = 4 ∧
    (noneWitnessEnv.sha256 (dataWithVersion noneWitnessEnv [0, 0, 0, 0])).length = 32 :=
  c5_none_layout noneWitnessEnv 0 [0, 0, 0, 0] (fun _ => rfl) (by decide)

/-- C7: the variant selector.  Parsing lowercases its input and matches the
three keywords; every string lowercasing to a keyword yields the matching
variant, everything else is `InvalidEncryptionType`; `from_str` is a pure
function of the input. -/
theorem c7_variant_selector :
    (∀ s : String, toLowercase s = "none" →
      EncryptionType.from_str s = .ok .none) ∧
    (∀ s : String, toLowercase s = "sm4" →
      EncryptionType.from_str s = .ok .sm4) ∧
    (∀ s : String, toLowercase s = "aes" →
      EncryptionType.from_str s = .ok .aes) ∧
    (∀ s : String, toLowercase s ≠ "none" → toLowercase s ≠ "sm4" →
      toLowercase s ≠ "aes" →
      EncryptionType.from_str s = .error .invalidEncryptionType) ∧
    EncryptionType.from_str "SM4" = .ok .sm4 ∧
    EncryptionType.from_str "sm4" = .ok .sm4 ∧
    EncryptionType.from_str "Sm4" = .ok .sm4 ∧
    EncryptionType.from_str "xyz" = .error .invalidEncryptionType := by
  refine ⟨?_, ?_, ?_, ?_, by decide, by decide, by decide, by decide⟩
  · intro s h; simp [EncryptionType.from_str, h]
  · intro s h; simp [EncryptionType.from_str, h]
  · intro s h; simp [EncryptionType.from_str, h]
  · intro s h1 h2 h3; simp [EncryptionType.from_str, h1, h2, h3]

/-- Witness for C7 at concrete mixed-case and unknown selector strings. -/
theorem c7_variant_selector_witness :
    EncryptionType.from_str "NoNe" = .ok .none ∧
    EncryptionType.from_str "qqq" = .error .invalidEncryptionType :=
  ⟨c7_variant_selector.1 "NoNe" (by decide),
   c7_variant_selector.2.2.2.1 "qqq" (by decide) (by decide) (by decide)⟩

/-- C8: in the `Aes` arm, whenever encryption, key parsing, key
construction and signing succeed, the image embeds the RSA signature `sig`
obtained from the PKCS#1 v1.5 scheme with no DigestInfo bytes
(`new_unprefixed`), no rng, the private key built from the parsed
`(n, e, d)` components, and the digest `SHA-256(tag)` of the 16-byte
authentication tag alone — the ciphertext enters the image but not the
signed digest. -/
theorem c8_aes_rsa_signature (env : Env) (rng : Nat) (data ct tag : Bytes)
    (n e d key : Nat) (sig : Bytes)
    (hkey : env.aesKey.length = 32) (hiv : env.aesIv.length = 12)
    (henc : env.aesEncrypt env.aesIv env.addAuthData (dataWithVersion env data)
      = .ok (ct, tag))
    (hn : parseHexBytes env.nHexBytes = some n)
    (helen : 2 ≤ env.eHexBytes.length)
    (he : parseHexU32 (env.eHexBytes.drop 2) = some e)
    (hd : parseHexBytes env.dHexBytes = some d)
    (hk : env.fromComponents n e d = .ok key)
    (hs : env.rsaSign pkcs1v15NoDigestInfo Option.none key (env.sha256 tag)
      = .ok sig) :
    gen_firmware env rng data .aes = .ok (env.magic
      ++ toLeBytes4 (ct ++ tag).length
      ++ toLeBytes4 EncryptionType.aes.toWire
      ++ toBytesLe n ++ toBytesLe e ++ sig ++ (ct ++ tag)) := by
  simpa [gen_firmware] using aesPath_eq hkey hiv henc hn helen he hd hk hs

/-- C3 counterexample: the value the `Sm4` arm passes to the raw signing
primitive (`sm4SignArg`, the output of `sig_ctx.hash(ID, &pk, &e)`) is
**not** the message digest `e = SM3(Za ‖ ciphertext)` itself (`sm4EValue`):
the code runs `e` through the library's Z-value digest a second time before
signing, so the two differ at this concrete environment and payload. -/
theorem c3_sm4_sign_arg_cex :
    sm4SignArg signArgCexEnv [] ≠ sm4EValue signArgCexEnv [] := by decide

/-- C3 (amended): in a successful `Sm4` run the value handed to `sign_raw`
is the result `digest` of `sig_ctx.hash(ID, &pk, &e)` applied to
`e = SM3(Za ‖ ciphertext)` — the library's second Z-value hash over `e`,
not `e` itself — and the resulting `(r, s)` is what the image embeds. -/
theorem c3_sm4_sign_arg_amended (env : Env) (rng : Nat) (data ct : Bytes)
    (pk sk : Nat) (g : Bytes × Bytes) (digest : Bytes) (r s : Nat)
    (hpre : sm4Prelude env data = .ok (ct, pk, sk, g))
    (hsig : env.sigHash pk (sm2EHash env g ct) = .ok digest)
    (hsign : env.signRaw rng digest sk = .ok (r, s))
    (hid : env.id.length ≤ 512 - 32 * 4) :
    sm4SignArg env data = .ok digest ∧
    sm4EValue env data = .ok (sm2EHash env g ct) ∧
    gen_firmware env rng data .sm4 = .ok (sm4Layout env ct r s) :=
  ⟨sm4SignArg_eq hpre hsig, by simp [sm4EValue, hpre],
   by simpa [gen_firmware] using sm4Path_eq hpre hsig hsign hid⟩

/-- Witness for the amended C3 at a concrete environment. -/
theorem c3_sm4_sign_arg_amended_witness :
    sm4SignArg trivialEnv [] = .ok [1] ∧
    sm4EValue trivialEnv [] = .ok (sm2EHash trivialEnv ([], []) []) ∧
    gen_firmware trivialEnv 0 [] .sm4 = .ok (sm4Layout trivialEnv [] 1 1) :=
  c3_sm4_sign_arg_amended trivialEnv 0 [] [] 0 0 ([], []) [1] 1 1
    (by decide) (by decide) (by decide) (by decide)

/-- C4: the `r` and `s` fields are serialized with `BigUint::to_bytes_le`,
a *minimal-length* encoding, not a fixed 32-byte one: for `r = s = 1` each
field is the single byte `[1]`, so with empty magic, empty id and empty
ciphertext the whole image is `4 + 4 + 4 + 384 + 64 + 1 + 1 = 462` bytes
where the claimed fixed layout (`pub_x ‖ pub_y ‖ r ‖ s` = 128 bytes) would
give `524`. -/
theorem c4_sm4_signature_width_bug :
    Except.map List.length (gen_firmware smallSigEnv 0 [] .sm4) = .ok 462 ∧
    toBytesLe 1 = [1] ∧
    (toBytesLe 1).length ≠ 32 ∧
    (462 : Nat) ≠ 524 := by decide

/-- C6 counterexample: with an empty identity (length `0 ≤ 384`) and the
legal signature values `r = 1`, `s = 2`, the region from `id_len` through
`s` of a successfully produced `Sm4` image is 454 bytes, not 516: the
minimal-length `r`/`s` serialization shrinks it. -/
theorem c6_region_length_cex :
    gen_firmware regionCexEnv 0 [] .sm4 = .ok (sm4Layout regionCexEnv [] 1 2) ∧
    (sm4Region regionCexEnv 1 2).length = 454 ∧
    (454 : Nat) ≠ 516 := by decide

/-- C6 (amended): for every successful `Sm4` run with 32-byte public key
coordinates, the region from `id_len` through `s` measures
`4 + len(id) + (384 - len(id)) + 32 + 32 + |r_bytes| + |s_bytes|
= 452 + |r_bytes| + |s_bytes|` bytes, where `r_bytes`, `s_bytes` are the
minimal little-endian serializations; it is 516 bytes exactly when both
serializations happen to be 32 bytes wide. -/
theorem c6_region_length_amended (env : Env) (rng : Nat) (P img : Bytes)
    (h : gen_firmware env rng P .sm4 = .ok img)
    (hx : env.publicKeyX.length = 32) (hy : env.publicKeyY.length = 32) :
    ∃ ct r s,
      img = env.magic ++ toLeBytes4 ct.length
        ++ toLeBytes4 EncryptionType.sm4.toWire ++ sm4Region env r s ++ ct ∧
      env.id.length ≤ 384 ∧
      (sm4Region env r s).length
        = 452 + (toBytesLe r).length + (toBytesLe s).length ∧
      ((toBytesLe r).length = 32 → (toBytesLe s).length = 32 →
        (sm4Region env r s).length = 516) := by
  have h' : sm4Path env rng P = .ok img := by simpa [gen_firmware] using h
  obtain ⟨ct, pk, sk, g, digest, r, s, -, -, -, hle, rfl⟩ := sm4Path_ok_inv h'
  have hlen : (sm4Region env r s).length
      = 452 + (toBytesLe r).length + (toBytesLe s).length := by
    simp [sm4Region, toLeBytes4, hx, hy]
    omega
  exact ⟨ct, r, s, rfl, by omega, hlen, fun h1 h2 => by omega⟩

/-- Witness for the amended C6 at a concrete environment. -/
theorem c6_region_length_amended_witness :
    ∃ ct r s,
      ([0, 0, 0, 0, 1, 0, 0, 0, 0, 0, 0, 0] ++ List.replicate 448 0 ++ [1, 1] : Bytes)
        = trivialEnv.magic ++ toLeBytes4 ct.length
          ++ toLeBytes4 EncryptionType.sm4.toWire ++ sm4Region trivialEnv r s ++ ct ∧
      trivialEnv.id.length ≤ 384 ∧
      (sm4Region trivialEnv r s).length
        = 452 + (toBytesLe r).length + (toBytesLe s).length ∧
      ((toBytesLe r).length = 32 → (toBytesLe s).length = 32 →
        (sm4Region trivialEnv r s).length = 516) :=
  c6_region_length_amended trivialEnv 0 [] _ (by decide) (by decide) (by decide)

/-- Witness for C8 at a concrete environment. -/
theorem c8_aes_rsa_signature_witness :
    gen_firmware trivialEnv 0 [] .aes = .ok (trivialEnv.magic
      ++ toLeBytes4 (([] : Bytes) ++ List.replicate 16 0).length
      ++ toLeBytes4 EncryptionType.aes.toWire
      ++ toBytesLe 1 ++ toBytesLe 23 ++ List.replicate 32 0
      ++ (([] : Bytes) ++ List.replicate 16 0)) :=
  c8_aes_rsa_signature trivialEnv 0 [] [] (List.replicate 16 0) 1 23 1 0
    (List.replicate 32 0) (by decide) (by decide) (by decide) (by decide)
    (by decide) (by decide) (by decide) (by decide) (by decide)

end K230
